import Mathlib

/-!
# Kanji Knowledge Engine — verification of the text-analysis core

Shallow embedding of the kanji-reader repository's core services:

* `JapaneseTextProcessor` (src/src/services/JapaneseTextProcessor.ts):
  kanji extraction, catalog lookup with graceful degradation, unique-kanji
  sorting, text statistics, difficulty scoring, text cleaning, and the
  knowledge-bank update loop.
* `KanjiDatabaseService` (src/src/services/KanjiDatabaseService.ts):
  the SQLite-backed catalog/exposure store — row model, `getKanji`,
  `updateKanjiTimesSeen` (a single `UPDATE ... SET times_seen = times_seen + 1`
  statement), seeding (`INSERT OR IGNORE` keyed by character) and
  `initialize`.
* `AsyncKanjiService` (the AsyncStorage variant): `searchKanji` with its
  frequency sort and JS `Array.slice` pagination.

Modelling conventions: a JS string is a list of UTF-16 code units
(`List Nat`); regex character classes such as `[一-龯]` test single
code units, exactly as the source's un-flagged regexes do; JS numbers are
embedded as `ℚ` for the difficulty formula (every constant involved is
exactly representable, and theorems that divide state nonzero-denominator
hypotheses); `String.prototype.localeCompare` is modelled as code-unit
comparison; `Array.prototype.sort` is modelled as a stable insertion sort
driven by the source's comparator; timestamp columns (`updated_at`,
`last_seen`, …) carry no information the claims touch and are elided.
-/

namespace KanjiReader

/-! ## Unicode code-unit classes (the source's regex character classes) -/

/-- `[一-龯]` — the kanji class used by `extractKanjiCharacters`. -/
def isKanjiCU (c : Nat) : Bool := 0x4E00 ≤ c && c ≤ 0x9FAF

/-- `[぀-ゟ]` — the hiragana class of `calculateTextStats`. -/
def isHiraganaCU (c : Nat) : Bool := 0x3040 ≤ c && c ≤ 0x309F

/-- `[゠-ヿ]` — the katakana class of `calculateTextStats`. -/
def isKatakanaCU (c : Nat) : Bool := 0x30A0 ≤ c && c ≤ 0x30FF

/-- `[＀-￯]` — the fullwidth-forms class kept by `cleanText`. -/
def isFullwidthCU (c : Nat) : Bool := 0xFF00 ≤ c && c ≤ 0xFFEF

/-- The JS regex `\s` class (ECMAScript WhiteSpace ∪ LineTerminator). -/
def isJsWs (c : Nat) : Bool :=
  c == 0x9 || c == 0xA || c == 0xB || c == 0xC || c == 0xD || c == 0x20 ||
  c == 0xA0 || c == 0x1680 || (0x2000 ≤ c && c ≤ 0x200A) ||
  c == 0x2028 || c == 0x2029 || c == 0x202F || c == 0x205F ||
  c == 0x3000 || c == 0xFEFF

/-! ## Catalog / exposure store rows (KanjiDatabaseService)

One row of the `kanji` table as `getKanjiByCharacter` hands it to the text
processor: the linguistic columns plus the `times_seen` exposure counter
(`DEFAULT 0`).  The `character` column holds a single BMP kanji, modelled
by its code point. -/

structure DbKanji where
  character : Nat
  meanings : List String
  on_readings : List String
  kun_readings : List String
  stroke_count : Nat
  jlpt_level : Option Int
  frequency : Option Int
  timesSeen : Nat
  deriving Repr, DecidableEq

/-- The kanji table: a list of rows (the `character` column is UNIQUE, which
`INSERT OR IGNORE` seeding maintains; none of the theorems below assume it). -/
abbrev KanjiStore := List DbKanji

/-- `SELECT * FROM kanji WHERE character = ?` — first matching row or none. -/
def getKanjiRow (s : KanjiStore) (c : Nat) : Option DbKanji :=
  s.find? (fun e => e.character == c)

/-- The stored times-seen for a character; an absent record counts as 0
(the spec's "absent record ≡ zero" convention). -/
def storedTimesSeen (s : KanjiStore) (c : Nat) : Nat :=
  match getKanjiRow s c with
  | some e => e.timesSeen
  | none => 0

/-- `updateKanjiTimesSeen` (KanjiDatabaseService.ts:392-405): the single SQL
statement `UPDATE kanji SET times_seen = times_seen + 1 WHERE character = ?`.
Rows whose `character` differs are untouched; if no row matches, the
statement affects zero rows. -/
def updateKanjiTimesSeen (s : KanjiStore) (c : Nat) : KanjiStore :=
  s.map (fun e => if e.character == c then { e with timesSeen := e.timesSeen + 1 } else e)

/-! ## KanjiMatch and getKanjiDetails (JapaneseTextProcessor) -/

/-- `extractKanjiCharacters` (JapaneseTextProcessor.ts:90-103): every code
unit in the kanji class, with its zero-based offset, in text order. -/
def extractKanjiAux : List Nat → Nat → List (Nat × Nat)
  | [], _ => []
  | c :: rest, i =>
    if isKanjiCU c then (c, i) :: extractKanjiAux rest (i + 1)
    else extractKanjiAux rest (i + 1)

def extractKanjiCharacters (text : List Nat) : List (Nat × Nat) :=
  extractKanjiAux text 0

/-- The processor's `KanjiMatch` value object (JapaneseTextProcessor.ts:3-13). -/
structure KanjiMatch where
  character : Nat
  position : Nat
  meanings : List String
  readings : List String
  timesSeen : Nat
  isNew : Bool
  jlptLevel : Option Int := none
  strokeCount : Option Nat := none
  frequency : Option Int := none
  deriving Repr, DecidableEq

/-- The match built for one occurrence by `getKanjiDetails`
(JapaneseTextProcessor.ts:108-169): a resolved character copies the row's
metadata (readings concatenate kun then on, `.filter(Boolean)` dropping empty
strings); an unresolved character degrades to the basic entry with
`meanings: ['Unknown']`, no readings, `timesSeen: 0`, `isNew: true`. -/
def mkMatchOfRow (row : Option DbKanji) (cp : Nat × Nat) : KanjiMatch :=
  match row with
  | some k =>
    { character := cp.1
      position := cp.2
      meanings := k.meanings
      readings := (k.kun_readings ++ k.on_readings).filter (fun r => r != "")
      timesSeen := k.timesSeen
      isNew := k.timesSeen == 0
      jlptLevel := k.jlpt_level
      strokeCount := some k.stroke_count
      frequency := k.frequency }
  | none =>
    { character := cp.1
      position := cp.2
      meanings := ["Unknown"]
      readings := []
      timesSeen := 0
      isNew := true }

def mkKanjiMatch (s : KanjiStore) (cp : Nat × Nat) : KanjiMatch :=
  mkMatchOfRow (getKanjiRow s cp.1) cp

def getKanjiDetails (s : KanjiStore) (occs : List (Nat × Nat)) : List KanjiMatch :=
  occs.map (mkKanjiMatch s)

/-! ## Unique-kanji sort (JapaneseTextProcessor.getUniqueKanji, lines 174-194)

`Array.prototype.sort` with the source's three-stage comparator is modelled
as a stable insertion sort: an element is inserted after every earlier
element the comparator orders strictly before it, so elements the comparator
ties keep their first-encounter order, as a JS stable sort does. -/

/-- Stable insertion of `x` into `l` under a JS-style comparator
(negative: first argument sorts earlier). -/
def insertByCmp (cmp : α → α → Int) (x : α) : List α → List α
  | [] => [x]
  | y :: ys => if cmp y x < 0 then y :: insertByCmp cmp x ys else x :: y :: ys

def sortByCmp (cmp : α → α → Int) : List α → List α
  | [] => []
  | x :: xs => insertByCmp cmp x (sortByCmp cmp xs)

/-- JS truthiness of the optional numeric `frequency` field:
`undefined`/`null` and `0` are falsy. -/
def truthyFreq (f : Option Int) : Bool :=
  match f with
  | some v => v != 0
  | none => false

/-- `String.prototype.localeCompare`, modelled as code-unit comparison. -/
def localeCmp (a b : Nat) : Int :=
  if a < b then -1 else if b < a then 1 else 0

/-- The comparator of `getUniqueKanji`: new kanji first; then, only when both
frequencies are truthy, `a.frequency - b.frequency`; otherwise
`localeCompare` on the characters. -/
def cmpKanji (a b : KanjiMatch) : Int :=
  if a.isNew && !b.isNew then -1
  else if !a.isNew && b.isNew then 1
  else if truthyFreq a.frequency && truthyFreq b.frequency then
    a.frequency.getD 0 - b.frequency.getD 0
  else localeCmp a.character b.character

/-- The `Map`-based dedup of `getUniqueKanji`: keep the first match for each
character, in first-encounter order. -/
def dedupeByChar : List KanjiMatch → List Nat → List KanjiMatch
  | [], _ => []
  | k :: rest, seen =>
    if seen.contains k.character then dedupeByChar rest seen
    else k :: dedupeByChar rest (k.character :: seen)

def getUniqueKanji (ms : List KanjiMatch) : List KanjiMatch :=
  sortByCmp cmpKanji (dedupeByChar ms [])

/-! ## Text statistics and analyzeText -/

structure TAStats where
  totalCharacters : Nat
  kanjiCount : Nat
  uniqueKanjiCount : Nat
  newKanjiCount : Nat
  hiraganaCount : Nat
  katakanaCount : Nat
  deriving Repr, DecidableEq

/-- `calculateTextStats` (JapaneseTextProcessor.ts:199-218):
`totalCharacters` is `text.length` — the UTF-16 code-unit count. -/
def calculateTextStats (text : List Nat) (ms : List KanjiMatch) : TAStats :=
  { totalCharacters := text.length
    kanjiCount := ms.length
    uniqueKanjiCount := ((ms.map (fun k => k.character)).dedup).length
    newKanjiCount := (((ms.filter (fun k => k.isNew)).map (fun k => k.character)).dedup).length
    hiraganaCount := (text.filter isHiraganaCU).length
    katakanaCount := (text.filter isKatakanaCU).length }

structure TextAnalysisResult where
  originalText : List Nat
  foundKanji : List KanjiMatch
  uniqueKanji : List KanjiMatch
  newKanji : List KanjiMatch
  knownKanji : List KanjiMatch
  stats : TAStats
  deriving Repr, DecidableEq

/-- The database read `getKanjiByCharacter` issues a single `SELECT`; it
returns the row and leaves the store as it was. Threading the store makes
the read/write footprint of each processor operation explicit. -/
def dbGetKanjiS (s : KanjiStore) (c : Nat) : Option DbKanji × KanjiStore :=
  (getKanjiRow s c, s)

/-- The lookup loop of `getKanjiDetails`, store threaded through each
database call in text order. -/
def getKanjiDetailsS : List (Nat × Nat) → KanjiStore → List KanjiMatch × KanjiStore
  | [], s => ([], s)
  | cp :: rest, s =>
    let (row, s1) := dbGetKanjiS s cp.1
    let (ms, s2) := getKanjiDetailsS rest s1
    (mkMatchOfRow row cp :: ms, s2)

/-- `analyzeText` (JapaneseTextProcessor.ts:44-85): extract occurrences,
look each up, dedupe+sort, partition by `isNew`, compute stats. Returns the
result together with the store after all database calls it makes. -/
def analyzeText (s : KanjiStore) (text : List Nat) : TextAnalysisResult × KanjiStore :=
  let occs := extractKanjiCharacters text
  let (ms, s1) := getKanjiDetailsS occs s
  let u := getUniqueKanji ms
  ({ originalText := text
     foundKanji := ms
     uniqueKanji := u
     newKanji := u.filter (fun k => k.isNew)
     knownKanji := u.filter (fun k => !k.isNew)
     stats := calculateTextStats text ms }, s1)

/-- `updateKnowledgeBank` (JapaneseTextProcessor.ts:223-245): one
`incrementKanjiTimesSeen` call per distinct character of the matches
(`List.dedup` supplies the distinct characters; the JS `Set` iteration
order is irrelevant to the resulting store). -/
def updateKnowledgeBank (s : KanjiStore) (ms : List KanjiMatch) : KanjiStore :=
  ((ms.map (fun k => k.character)).dedup).foldl updateKanjiTimesSeen s

/-! ## cleanText (JapaneseTextProcessor.ts:250-261)

The five chained `replace`/`trim` stages, in source order. -/

/-- `.replace(/\s+/g, ' ')`, scanned left to right: the first character of
each maximal whitespace run becomes one space (`inWs` records whether the
scan is inside a run, so the run's remaining whitespace is dropped). -/
def collapseWsAux : Bool → List Nat → List Nat
  | _, [] => []
  | inWs, c :: rest =>
    if isJsWs c then
      if inWs then collapseWsAux true rest
      else 0x20 :: collapseWsAux true rest
    else c :: collapseWsAux false rest

def collapseWs (l : List Nat) : List Nat := collapseWsAux false l

/-- The character class `cleanText` keeps: hiragana, katakana, kanji,
fullwidth forms, `\s`, `\n`, and `.,!?。、`. -/
def keepCU (c : Nat) : Bool :=
  isHiraganaCU c || isKatakanaCU c || isKanjiCU c || isFullwidthCU c ||
  isJsWs c || c == 0x0A || c == 0x2E || c == 0x2C || c == 0x21 ||
  c == 0x3F || c == 0x3002 || c == 0x3001

/-- `.replace(/\r\n/g, '\n')`. -/
def replaceCRLF : List Nat → List Nat
  | [] => []
  | [c] => [c]
  | a :: b :: rest =>
    if a == 0x0D && b == 0x0A then 0x0A :: replaceCRLF rest
    else a :: replaceCRLF (b :: rest)

/-- `.replace(/\r/g, '\n')`. -/
def replaceCR (l : List Nat) : List Nat :=
  l.map (fun c => if c == 0x0D then 0x0A else c)

/-- `String.prototype.trim`: strip leading and trailing whitespace. -/
def trimJs (l : List Nat) : List Nat :=
  ((l.dropWhile isJsWs).reverse.dropWhile isJsWs).reverse

def cleanText (text : List Nat) : List Nat :=
  trimJs (replaceCR (replaceCRLF ((collapseWs text).filter keepCU)))

/-- `isJapaneseText` (JapaneseTextProcessor.ts:266-269). -/
def isJapaneseText (text : List Nat) : Bool :=
  text.any (fun c => isHiraganaCU c || isKatakanaCU c || isKanjiCU c)

/-! ## Difficulty scorer (JapaneseTextProcessor.ts:274-301)

JS numbers are embedded as `ℚ`; `Math.round` rounds half toward `+∞`
(`⌊x + 1/2⌋`).  `ℚ` division by zero is 0 where JS would give `Infinity` or
`NaN`, so theorems that divide carry nonzero-denominator hypotheses and
concrete evaluations use nonzero denominators. -/

def jsRound (x : ℚ) : Int := ⌊x + 1 / 2⌋

/-- The `jlptLevel`s present among a list of matches
(`newKanji.map(k => k.jlptLevel).filter(level => level !== undefined)`). -/
def jlptLevelsOf (ms : List KanjiMatch) : List Int :=
  ms.filterMap (fun k => k.jlptLevel)

/-- The average JLPT level of the new-kanji entries that have one,
defaulting to 3 (N3) when none does. -/
def avgJlptOf (ms : List KanjiMatch) : ℚ :=
  if jlptLevelsOf ms = [] then 3
  else ((jlptLevelsOf ms).sum : ℚ) / ((jlptLevelsOf ms).length : ℚ)

/-- `difficulty` just before rounding:
`1 + kanjiRatio*3 + newKanjiRatio*4 + (6 - avgJlptLevel)*0.5`. -/
def rawDifficulty (r : TextAnalysisResult) : ℚ :=
  1 + ((r.stats.kanjiCount : ℚ) / (r.stats.totalCharacters : ℚ)) * 3
    + ((r.stats.newKanjiCount : ℚ) / (r.stats.uniqueKanjiCount : ℚ)) * 4
    + (6 - avgJlptOf r.newKanji) * (1 / 2)

/-- `calculateDifficultyScore` (JapaneseTextProcessor.ts:274-301): returns 1
when there is no kanji; otherwise `Math.min(Math.round(difficulty), 10)` —
note the source clamps only from above. -/
def calculateDifficultyScore (r : TextAnalysisResult) : Int :=
  if r.stats.kanjiCount = 0 then 1
  else min (jsRound (rawDifficulty r)) 10

/-! ## UTF-16 encoding

`analyzeText` receives a JS string, i.e. UTF-16 code units.  `utf16Encode`
maps a sequence of Unicode scalar values to that representation: a scalar
outside the BMP becomes a surrogate pair of two code units. -/

def encodeUtf16Char (u : Nat) : List Nat :=
  if u < 0x10000 then [u]
  else [0xD800 + (u - 0x10000) / 0x400, 0xDC00 + (u - 0x10000) % 0x400]

def utf16Encode (us : List Nat) : List Nat :=
  (us.map encodeUtf16Char).flatten

/-! ## Catalog seeding (KanjiDatabaseService.initialize, lines 58-206)

`initialize` opens the store, runs `CREATE TABLE IF NOT EXISTS` (no effect on
rows), and seeds from the bundled `kanji.json` only when `COUNT(*)` is zero;
each seed record is inserted with `INSERT OR IGNORE`, keyed by the UNIQUE
`character` column.  Metadata rows use `INSERT OR REPLACE`.  Timestamp values
are elided; the `frequency` column's concrete representation is irrelevant to
the counted properties and reuses `Option Int`. -/

structure SeedKanji where
  character : Nat
  meanings : List String
  onReadings : List String
  kunReadings : List String
  strokeCount : Nat
  jlptLevel : Option Int := none
  frequency : Option Int := none
  timesSeen : Option Nat := none
  deriving Repr, DecidableEq

def rowOfSeed (k : SeedKanji) : DbKanji :=
  { character := k.character
    meanings := k.meanings
    on_readings := k.onReadings
    kun_readings := k.kunReadings
    stroke_count := k.strokeCount
    jlpt_level := k.jlptLevel
    frequency := k.frequency
    timesSeen := k.timesSeen.getD 0 }

structure DbState where
  kanji : KanjiStore
  metadata : List (String × String)
  deriving Repr, DecidableEq

def emptyDb : DbState := { kanji := [], metadata := [] }

/-- `INSERT OR IGNORE`: a row whose `character` already exists is skipped. -/
def insertOrIgnore (s : KanjiStore) (r : DbKanji) : KanjiStore :=
  if s.any (fun e => e.character == r.character) then s else s ++ [r]

/-- `INSERT OR REPLACE INTO database_metadata`. -/
def upsertMeta (m : List (String × String)) (kv : String × String) : List (String × String) :=
  (m.filter (fun p => p.1 != kv.1)) ++ [kv]

def importKanjiJsonData (seed : List SeedKanji) (st : DbState) : DbState :=
  { kanji := seed.foldl (fun acc k => insertOrIgnore acc (rowOfSeed k)) st.kanji
    metadata :=
      upsertMeta (upsertMeta (upsertMeta (upsertMeta st.metadata
        ("version", "2.0.0")) ("seeded_at", "timestamp")) ("data_source", "kanji.json"))
        ("total_imported", toString seed.length) }

/-- `SELECT COUNT(*) as kanji_count FROM kanji` — what `getDatabaseStats`
reports as `totalKanji`. -/
def getTotalKanji (st : DbState) : Nat := st.kanji.length

/-- `CREATE TABLE IF NOT EXISTS ...` three times: schema objects only —
existing rows are untouched. -/
def createTables (st : DbState) : DbState := st

def checkAndSeedDatabase (seed : List SeedKanji) (st : DbState) : DbState :=
  if getTotalKanji st = 0 then importKanjiJsonData seed st else st

def initializeDb (seed : List SeedKanji) (st : DbState) : DbState :=
  checkAndSeedDatabase seed (createTables st)

/-! ## AsyncKanjiService.searchKanji (the AsyncStorage variant, lines 309-359)

Strings are lists of UTF-16 code units here too.  `String.prototype.includes`
is substring containment; meanings are compared after `toLowerCase`, which
for the catalog's ASCII meaning strings is ASCII lowercasing. -/

def asciiToLower (c : Nat) : Nat := if 0x41 ≤ c && c ≤ 0x5A then c + 0x20 else c

/-- Does `need` occur starting at the head of `hay`? -/
def segStartsAt : List Nat → List Nat → Bool
  | [], _ => true
  | _ :: _, [] => false
  | n :: ns, h :: hs => n == h && segStartsAt ns hs

/-- `hay.includes(need)` — substring containment. -/
def hasSeg (need : List Nat) : List Nat → Bool
  | [] => segStartsAt need []
  | h :: t => segStartsAt need (h :: t) || hasSeg need t

structure AsyncEntry where
  character : List Nat
  meanings : List (List Nat)
  onReadings : List (List Nat)
  kunReadings : List (List Nat)
  strokeCount : Nat
  grade : Option Int := none
  jlptLevel : Option Int := none
  frequency : Option Int := none
  deriving Repr, DecidableEq

structure SearchOptions where
  query : Option (List Nat) := none
  grade : Option Int := none
  jlptLevel : Option Int := none
  strokeCount : Option Nat := none
  limit : Option Int := none
  offset : Option Int := none
  deriving Repr, DecidableEq

structure AsyncSearchResult where
  kanji : List AsyncEntry
  totalCount : Nat
  deriving Repr, DecidableEq

/-- The query clause: character OR lowercased meanings OR on/kun readings. -/
def matchesQuery (q : List Nat) (e : AsyncEntry) : Bool :=
  hasSeg q e.character ||
  e.meanings.any (fun m => hasSeg (q.map asciiToLower) (m.map asciiToLower)) ||
  e.onReadings.any (fun r => hasSeg q r) ||
  e.kunReadings.any (fun r => hasSeg q r)

/-- `(a.frequency || 999)`: JS falsy (`undefined`, `0`) becomes 999. -/
def freqOr999 (e : AsyncEntry) : Int :=
  match e.frequency with
  | some v => if v == 0 then 999 else v
  | none => 999

def cmpAsyncFreq (a b : AsyncEntry) : Int := freqOr999 a - freqOr999 b

/-- `Array.prototype.slice(start, end)` with JS negative-index semantics. -/
def jsSlice (l : List α) (s e : Int) : List α :=
  let len : Int := l.length
  let lo := if s < 0 then max (len + s) 0 else min s len
  let hi := if e < 0 then max (len + e) 0 else min e len
  (l.drop lo.toNat).take (hi - lo).toNat

/-- The filtered, frequency-sorted match list `searchKanji` paginates
(`results` just before `slice`). -/
def asyncFilteredSorted (db : List AsyncEntry) (o : SearchOptions) : List AsyncEntry :=
  let r1 := match o.query with
    | some q => if q.isEmpty then db else db.filter (matchesQuery q)
    | none => db
  let r2 := match o.grade with
    | some g => r1.filter (fun e => e.grade == some g)
    | none => r1
  let r3 := match o.jlptLevel with
    | some j => r2.filter (fun e => e.jlptLevel == some j)
    | none => r2
  let r4 := match o.strokeCount with
    | some n => r3.filter (fun e => e.strokeCount == n)
    | none => r3
  sortByCmp cmpAsyncFreq r4

/-- `AsyncKanjiService.searchKanji`: throws only when the database is not
initialized; `limit` defaults to 50 and `offset` to 0, and both go straight
into `results.slice(offset, offset + limit)` with no range validation. -/
def asyncSearchKanji : Option (List AsyncEntry) → SearchOptions →
    Except String AsyncSearchResult
  | none, _ => .error "Database not initialized"
  | some db, o =>
    let limit : Int := o.limit.getD 50
    let offset : Int := o.offset.getD 0
    let results := asyncFilteredSorted db o
    .ok { kanji := jsSlice results offset (offset + limit), totalCount := results.length }

/-- Any interleaving of encounter-recording calls is a sequence of their
atomic store actions: each `updateKanjiTimesSeen` is one SQL statement. -/
def runIncrements (s : KanjiStore) (cs : List Nat) : KanjiStore :=
  cs.foldl updateKanjiTimesSeen s

/-! ## Sample data used by concrete evaluations -/

def rowSun : DbKanji :=
  { character := 0x65E5, meanings := ["day", "sun"], on_readings := ["ニチ"],
    kun_readings := ["ひ"], stroke_count := 4, jlpt_level := some 5,
    frequency := some 1, timesSeen := 3 }

/-- A store holding only 日 (U+65E5). -/
def storeA : KanjiStore := [rowSun]

def rowGaku : DbKanji :=
  { character := 0x5B66, meanings := ["study", "learning"], on_readings := ["ガク"],
    kun_readings := ["まなぶ"], stroke_count := 8, jlpt_level := some 5,
    frequency := some 15, timesSeen := 3 }

/-- A store holding only 学 (U+5B66), at times-seen 3. -/
def storeGaku : KanjiStore := [rowGaku]

/-! # Theorems -/

/-! ## Store-update lemmas -/

theorem getKanjiRow_update (s : KanjiStore) (c : Nat) :
    getKanjiRow (updateKanjiTimesSeen s c) c
      = (getKanjiRow s c).map (fun e => { e with timesSeen := e.timesSeen + 1 }) := by
  induction s with
  | nil => rfl
  | cons e t ih =>
    by_cases h : e.character == c
    · simp only [updateKanjiTimesSeen, List.map_cons, getKanjiRow, List.find?, h,
        if_pos rfl, if_true]
      simp [h]
    · simp only [updateKanjiTimesSeen, List.map_cons, getKanjiRow, List.find?] at *
      simp only [h, if_false, Bool.false_eq_true, if_neg]
      simpa [h, updateKanjiTimesSeen] using ih

theorem update_of_absent (s : KanjiStore) (c : Nat) (h : getKanjiRow s c = none) :
    updateKanjiTimesSeen s c = s := by
  induction s with
  | nil => rfl
  | cons e t ih =>
    simp only [getKanjiRow, List.find?] at h
    by_cases he : e.character == c
    · simp [he] at h
    · simp only [he, Bool.false_eq_true, if_neg] at h
      simp only [updateKanjiTimesSeen, List.map_cons, he, if_neg, Bool.false_eq_true]
      exact congrArg (e :: ·) (ih h)

theorem storedTimesSeen_update (s : KanjiStore) (c : Nat)
    (h : getKanjiRow s c ≠ none) :
    storedTimesSeen (updateKanjiTimesSeen s c) c = storedTimesSeen s c + 1 := by
  obtain ⟨e, he⟩ := Option.ne_none_iff_exists'.mp h
  simp [storedTimesSeen, getKanjiRow_update, he]

/-! ## C1 — per-character encounter update -/

/-- C1 (amended): one `updateKanjiTimesSeen` call increments the stored
times-seen for a character by exactly 1 when the store has a row for it;
when no row exists the SQL `UPDATE ... WHERE character = ?` affects zero
rows, so the call is a no-op and no record is created. -/
theorem updateTimesSeen_increment_or_noop (s : KanjiStore) (c : Nat) :
    (getKanjiRow s c ≠ none →
      storedTimesSeen (updateKanjiTimesSeen s c) c = storedTimesSeen s c + 1)
    ∧ (getKanjiRow s c = none → updateKanjiTimesSeen s c = s) :=
  ⟨storedTimesSeen_update s c, update_of_absent s c⟩

/-- C1 counterexample: for 本 (U+672C), absent from `storeA`, the encounter
update creates no exposure record — the store is unchanged, the lookup still
returns nothing, and the stored times-seen stays 0, not 1; the claim's
"creates one with times-seen equal to 1" fails. -/
theorem updateTimesSeen_absent_creates_nothing :
    updateKanjiTimesSeen storeA 0x672C = storeA
    ∧ getKanjiRow (updateKanjiTimesSeen storeA 0x672C) 0x672C = none
    ∧ storedTimesSeen (updateKanjiTimesSeen storeA 0x672C) 0x672C ≠ 1 := by
  refine ⟨rfl, rfl, ?_⟩
  decide

/-! ## C5 — analyzeText does not write the exposure store -/

theorem getKanjiDetailsS_snd (occs : List (Nat × Nat)) (s : KanjiStore) :
    (getKanjiDetailsS occs s).2 = s := by
  induction occs with
  | nil => rfl
  | cons cp rest ih => simpa [getKanjiDetailsS, dbGetKanjiS] using ih

/-- C5: `analyzeText` only issues `SELECT`s — the store it returns is the
store it was given, so every exposure counter is unchanged. -/
theorem analyzeText_read_only (s : KanjiStore) (text : List Nat) :
    (analyzeText s text).2 = s
    ∧ ∀ c : Nat, storedTimesSeen (analyzeText s text).2 c = storedTimesSeen s c := by
  have h : (analyzeText s text).2 = s := by
    simp [analyzeText, getKanjiDetailsS_snd]
  exact ⟨h, fun c => by rw [h]⟩

/-- Contrast for C5: the embedding's write path is not inert — one
`updateKnowledgeBank` call on the same store does raise 日's counter, so
`analyzeText` leaving the store unchanged reflects the code's read-only
behaviour, not the state threading. -/
theorem updateKnowledgeBank_mutates :
    storedTimesSeen (updateKnowledgeBank storeA [mkKanjiMatch storeA (0x65E5, 0)]) 0x65E5
      = storedTimesSeen storeA 0x65E5 + 1 := by
  decide

/-! ## C6 — overlapping encounter updates for one character -/

/-- C6 (amended): each encounter-recording call is the single atomic SQL
statement `times_seen = times_seen + 1`, so two overlapping calls for the
same character interleave as the two actions in some order; for a character
with a store row every such schedule ends at the prior value plus exactly 2
(no increment is lost to a read-modify-write race). For a character with no
row both calls are no-ops (see the counterexample). -/
theorem overlapping_increments_serialize (s : KanjiStore) (c : Nat)
    (sched : List Nat) (hrow : getKanjiRow s c ≠ none)
    (hsched : sched.Perm [c, c]) :
    storedTimesSeen (runIncrements s sched) c = storedTimesSeen s c + 2 := by
  have h2 : sched = [c, c] := by
    have : sched = List.replicate 2 c := List.perm_replicate.mp hsched
    simpa [List.replicate] using this
  subst h2
  have hrow1 : getKanjiRow (updateKanjiTimesSeen s c) c ≠ none := by
    rw [getKanjiRow_update]
    exact fun h => hrow (Option.map_eq_none'.mp h)
  calc storedTimesSeen (updateKanjiTimesSeen (updateKanjiTimesSeen s c) c) c
      = storedTimesSeen (updateKanjiTimesSeen s c) c + 1 :=
        storedTimesSeen_update _ c hrow1
    _ = storedTimesSeen s c + 1 + 1 := by rw [storedTimesSeen_update s c hrow]
    _ = storedTimesSeen s c + 2 := rfl

theorem overlapping_increments_serialize_witness :
    storedTimesSeen (runIncrements storeGaku [0x5B66, 0x5B66]) 0x5B66
      = storedTimesSeen storeGaku 0x5B66 + 2 :=
  overlapping_increments_serialize storeGaku 0x5B66 [0x5B66, 0x5B66]
    (by decide) (List.Perm.refl _)

/-- C6 counterexample: 学 (U+5B66) has no row in `storeA`, so two completed
encounter-recording calls leave its stored times-seen at 0, not prior + 2 —
the claim fails for characters without a catalog row. -/
theorem overlapping_increments_absent_cex :
    storedTimesSeen (runIncrements storeA [0x5B66, 0x5B66]) 0x5B66 = 0
    ∧ storedTimesSeen (runIncrements storeA [0x5B66, 0x5B66]) 0x5B66
        ≠ storedTimesSeen storeA 0x5B66 + 2 := by
  constructor <;> decide

/-! ## C8 — idempotent seeding -/

/-- C8: `initialize()` twice on an initially empty store yields the same
`totalKanji` — indeed the same kanji table: the second call sees a nonzero
count and skips seeding (or, for an empty bundled dataset, re-runs the same
empty `INSERT OR IGNORE` import). -/
theorem initialize_twice_same_totalKanji (seed : List SeedKanji) :
    getTotalKanji (initializeDb seed (initializeDb seed emptyDb))
      = getTotalKanji (initializeDb seed emptyDb)
    ∧ (initializeDb seed (initializeDb seed emptyDb)).kanji
      = (initializeDb seed emptyDb).kanji := by
  have hkanji : (initializeDb seed (initializeDb seed emptyDb)).kanji
      = (initializeDb seed emptyDb).kanji := by
    simp only [initializeDb, createTables, checkAndSeedDatabase, getTotalKanji,
      emptyDb, List.length_nil, if_pos rfl]
    by_cases h : (importKanjiJsonData seed { kanji := [], metadata := [] }).kanji.length = 0
    · have hnil : (importKanjiJsonData seed { kanji := [], metadata := [] }).kanji = [] :=
        List.length_eq_zero.mp h
      simp only [h, if_pos rfl, importKanjiJsonData] at *
      simp [hnil]
    · simp [h]
  exact ⟨congrArg List.length hkanji, hkanji⟩

/-! ## C3 — unresolved characters degrade gracefully -/

/-- C3 (amended): `getKanjiDetails` is total and yields one `KanjiMatch` per
occurrence; an occurrence of a character with no catalog row yields the
basic entry — `meanings` is the placeholder `["Unknown"]` (not empty),
`readings` is empty, `timesSeen` is 0 and `isNew` is true — and the rest of
the text's occurrences are still all analyzed. -/
theorem unresolved_yields_basic_match (s : KanjiStore) (occs : List (Nat × Nat)) :
    (getKanjiDetails s occs).length = occs.length
    ∧ ∀ cp ∈ occs, getKanjiRow s cp.1 = none →
        mkKanjiMatch s cp
          = { character := cp.1, position := cp.2, meanings := ["Unknown"],
              readings := [], timesSeen := 0, isNew := true }
        ∧ mkKanjiMatch s cp ∈ getKanjiDetails s occs := by
  refine ⟨List.length_map _ _, fun cp hcp hnone => ⟨?_, ?_⟩⟩
  · simp [mkKanjiMatch, mkMatchOfRow, hnone]
  · exact List.mem_map_of_mem (mkKanjiMatch s) hcp

/-- C3 counterexample: the unresolved character 本 (U+672C) produces a match
whose `meanings` is `["Unknown"]`, which is not the empty sequence the claim
states. -/
theorem unresolved_meanings_not_empty_cex :
    getKanjiRow storeA 0x672C = none
    ∧ (mkKanjiMatch storeA (0x672C, 0)).meanings = ["Unknown"]
    ∧ (mkKanjiMatch storeA (0x672C, 0)).meanings ≠ []
    ∧ (mkKanjiMatch storeA (0x672C, 0)).readings = []
    ∧ (mkKanjiMatch storeA (0x672C, 0)).isNew = true := by
  refine ⟨rfl, rfl, ?_, rfl, rfl⟩
  decide

/-! ## C4 — the unique-kanji ordering -/

theorem mem_insertByCmp {cmp : α → α → Int} {x z : α} :
    ∀ {l : List α}, z ∈ insertByCmp cmp x l → z = x ∨ z ∈ l := by
  intro l
  induction l with
  | nil =>
    intro h
    simp only [insertByCmp, List.mem_singleton] at h
    exact Or.inl h
  | cons y ys ih =>
    intro h
    by_cases hc : cmp y x < 0
    · simp only [insertByCmp, if_pos hc, List.mem_cons] at h
      rcases h with rfl | h'
      · exact Or.inr (List.mem_cons_self _ _)
      · rcases ih h' with h'' | h''
        · exact Or.inl h''
        · exact Or.inr (List.mem_cons_of_mem _ h'')
    · simp only [insertByCmp, if_neg hc, List.mem_cons] at h
      rcases h with rfl | h'
      · exact Or.inl rfl
      · exact Or.inr (List.mem_cons.mpr h')

/-- If the comparator puts `y` strictly before `x` and `x` is new, then `y`
is new too: a known `y` against a new `x` returns 1. -/
theorem cmpKanji_lt_isNew {y x : KanjiMatch} (h : cmpKanji y x < 0)
    (hx : x.isNew = true) : y.isNew = true := by
  by_contra hy
  simp only [Bool.not_eq_true] at hy
  simp [cmpKanji, hy, hx] at h

/-- If the comparator does not put `y` strictly before `x` and `y` is new,
then `x` is new too: a new `y` against a known `x` returns -1. -/
theorem cmpKanji_not_lt_isNew {y x : KanjiMatch} (h : ¬ cmpKanji y x < 0)
    (hy : y.isNew = true) : x.isNew = true := by
  by_contra hx
  simp only [Bool.not_eq_true] at hx
  exact h (by simp [cmpKanji, hy, hx])

theorem pairwise_insertByCmp {x : KanjiMatch} {l : List KanjiMatch}
    (hl : l.Pairwise fun a b => b.isNew = true → a.isNew = true) :
    (insertByCmp cmpKanji x l).Pairwise
      (fun a b => b.isNew = true → a.isNew = true) := by
  induction l with
  | nil => simp [insertByCmp]
  | cons y ys ih =>
    rcases List.pairwise_cons.mp hl with ⟨hy, hys⟩
    by_cases h : cmpKanji y x < 0
    · simp only [insertByCmp, if_pos h]
      refine List.pairwise_cons.mpr ⟨?_, ih hys⟩
      intro z hz
      rcases mem_insertByCmp hz with rfl | hz'
      · exact cmpKanji_lt_isNew h
      · exact hy z hz'
    · simp only [insertByCmp, if_neg h]
      refine List.pairwise_cons.mpr ⟨?_, hl⟩
      intro z hz
      rcases List.mem_cons.mp hz with rfl | hz'
      · exact cmpKanji_not_lt_isNew h
      · exact fun hznew => cmpKanji_not_lt_isNew h (hy z hz' hznew)

theorem pairwise_sortByCmp : ∀ l : List KanjiMatch,
    (sortByCmp cmpKanji l).Pairwise (fun a b => b.isNew = true → a.isNew = true)
  | [] => List.Pairwise.nil
  | _x :: xs => pairwise_insertByCmp (pairwise_sortByCmp xs)

/-- C4 (amended): in `uniqueKanji` every new kanji precedes every known
kanji.  Beyond that the comparator orders a pair by ascending frequency only
when *both* entries carry a truthy (non-null, nonzero) frequency; any other
pair — in particular one involving a null frequency — falls through to
character comparison, so null-frequency entries are interleaved by character
rather than placed last. -/
theorem uniqueKanji_new_before_known (ms : List KanjiMatch) :
    (getUniqueKanji ms).Pairwise (fun a b => b.isNew = true → a.isNew = true)
    ∧ ∀ a b : KanjiMatch,
        (truthyFreq a.frequency && truthyFreq b.frequency) = false →
        a.isNew = b.isNew → cmpKanji a b = localeCmp a.character b.character := by
  refine ⟨pairwise_sortByCmp _, fun a b hf hnew => ?_⟩
  cases hab : a.isNew <;>
    simp [cmpKanji, hab, ← hnew, hf]

/-- A new kanji with no catalog frequency, at code point 一 (U+4E00). -/
def aM : KanjiMatch :=
  { character := 0x4E00, position := 0, meanings := [], readings := [],
    timesSeen := 0, isNew := true, frequency := none }

/-- A new kanji with catalog frequency 1, at code point 丁 (U+4E01). -/
def bM : KanjiMatch :=
  { character := 0x4E01, position := 1, meanings := [], readings := [],
    timesSeen := 0, isNew := true, frequency := some 1 }

/-- C4 counterexample: among two new kanji, the entry with null frequency
(一) sorts *before* the entry with frequency 1 (丁) because the comparator
falls through to character comparison — the claim's "entries of null/unknown
frequency placed last" fails. -/
theorem uniqueKanji_nullFreq_not_last_cex :
    (getUniqueKanji [aM, bM]).map (fun k => k.frequency) = [none, some 1]
    ∧ aM.isNew = bM.isNew := by
  constructor <;> decide

/-! ## C2 — difficulty score bounds -/

theorem sum_cast_le_six (L : List Int) (h : ∀ l ∈ L, l ≤ 6) :
    ((L.sum : Int) : ℚ) ≤ 6 * (L.length : ℚ) := by
  induction L with
  | nil => simp
  | cons a t ih =>
    have ha : ((a : ℚ)) ≤ 6 := by exact_mod_cast h a (List.mem_cons_self _ _)
    have ht := ih (fun l hl => h l (List.mem_cons_of_mem _ hl))
    simp only [List.sum_cons, List.length_cons, Int.cast_add, Nat.cast_add, Nat.cast_one]
    linarith

theorem avgJlpt_le_six {ms : List KanjiMatch}
    (h : ∀ l ∈ jlptLevelsOf ms, l ≤ 6) :
    avgJlptOf ms ≤ 6 := by
  unfold avgJlptOf
  split
  · norm_num
  · rename_i hne
    have hlen : 0 < (jlptLevelsOf ms).length := List.length_pos.mpr hne
    have hlenQ : (0 : ℚ) < ((jlptLevelsOf ms).length : ℚ) := by
      exact_mod_cast hlen
    rw [div_le_iff₀ hlenQ]
    have hs := sum_cast_le_six (jlptLevelsOf ms) h
    linarith

/-- C2 (amended): with no kanji the score is exactly 1; for a result with
positive `totalCharacters` and `uniqueKanjiCount` (so the two divisions have
the meaning JS gives them), the score is clamped from above at 10, and it is
at least 1 whenever no new-kanji JLPT level exceeds 6 — but the source never
clamps from below, so that lower bound is *not* unconditional (see the
counterexample). -/
theorem difficultyScore_bounds_amended (r : TextAnalysisResult) :
    (r.stats.kanjiCount = 0 → calculateDifficultyScore r = 1)
    ∧ (0 < r.stats.totalCharacters → 0 < r.stats.uniqueKanjiCount →
        calculateDifficultyScore r ≤ 10
        ∧ ((∀ l ∈ jlptLevelsOf r.newKanji, l ≤ 6) →
            1 ≤ calculateDifficultyScore r)) := by
  refine ⟨fun h0 => by simp [calculateDifficultyScore, h0], fun _ _ => ⟨?_, ?_⟩⟩
  · unfold calculateDifficultyScore
    split
    · norm_num
    · exact min_le_right _ _
  · intro hlev
    unfold calculateDifficultyScore
    split
    · norm_num
    · refine le_min ?_ (by norm_num)
      unfold jsRound
      rw [Int.le_floor]
      have hkf : (0 : ℚ) ≤ (r.stats.kanjiCount : ℚ) / (r.stats.totalCharacters : ℚ) := by
        positivity
      have hnf : (0 : ℚ) ≤ (r.stats.newKanjiCount : ℚ) / (r.stats.uniqueKanjiCount : ℚ) := by
        positivity
      have havg : avgJlptOf r.newKanji ≤ 6 := avgJlpt_le_six hlev
      unfold rawDifficulty
      push_cast
      linarith

/-- A catalog row for 一 (U+4E00) carrying the out-of-scale JLPT level 21
(the `jlpt_level` column is an unconstrained INTEGER). -/
def rowOne : DbKanji :=
  { character := 0x4E00, meanings := ["one"], on_readings := ["イチ"],
    kun_readings := [], stroke_count := 1, jlpt_level := some 21,
    frequency := some 1, timesSeen := 0 }

def storeOne : KanjiStore := [rowOne]

/-- The four-code-unit text 一abc: one kanji among four characters. -/
def textOneAbc : List Nat := [0x4E00, 0x61, 0x62, 0x63]

/-- C2 counterexample: analyzing 一abc against `storeOne` gives
`raw = 1 + (1/4)*3 + 1*4 + (6 - 21)*0.5 = -1.75`, and
`Math.min(Math.round(-1.75), 10) = -2` — an output below 1, so the result
of `calculateDifficultyScore` is not rounded-then-clamped into [1,10]. -/
theorem difficultyScore_below_range_cex :
    calculateDifficultyScore (analyzeText storeOne textOneAbc).1 = -2
    ∧ (analyzeText storeOne textOneAbc).1.stats.kanjiCount ≠ 0
    ∧ calculateDifficultyScore (analyzeText storeOne textOneAbc).1 < 1 := by
  have h1 : (analyzeText storeOne textOneAbc).1.stats
      = { totalCharacters := 4, kanjiCount := 1, uniqueKanjiCount := 1,
          newKanjiCount := 1, hiraganaCount := 0, katakanaCount := 0 } := by decide
  have h2 : jlptLevelsOf (analyzeText storeOne textOneAbc).1.newKanji = [21] := by decide
  have hraw : rawDifficulty (analyzeText storeOne textOneAbc).1 = -7/4 := by
    rw [rawDifficulty, avgJlptOf, h1, h2]
    norm_num
  have hscore : calculateDifficultyScore (analyzeText storeOne textOneAbc).1 = -2 := by
    rw [calculateDifficultyScore, h1, hraw]
    norm_num [jsRound]
  exact ⟨hscore, by rw [h1]; decide, by rw [hscore]; norm_num⟩

/-! ## C7 — searchKanji pagination arguments -/

theorem jsSlice_sublist (l : List α) (s e : Int) : (jsSlice l s e).Sublist l := by
  unfold jsSlice
  exact (List.take_sublist _ _).trans (List.drop_sublist _ _)

/-- C7 (amended): `searchKanji` performs no range validation: a non-positive
`limit` or a negative `offset` is not rejected with an InvalidArgument error
— on an initialized database the call still returns an ordinary result page
(a sub-list of the filtered, frequency-sorted matches, cut by JS
`Array.slice` semantics, under which a negative offset addresses from the
end), with `totalCount` the full filtered-match count. -/
theorem searchKanji_no_validation (db : List AsyncEntry) (o : SearchOptions)
    (_hbad : o.limit.getD 50 ≤ 0 ∨ o.offset.getD 0 < 0) :
    ∃ r, asyncSearchKanji (some db) o = .ok r
      ∧ r.totalCount = (asyncFilteredSorted db o).length
      ∧ r.kanji = jsSlice (asyncFilteredSorted db o) (o.offset.getD 0)
          (o.offset.getD 0 + o.limit.getD 50)
      ∧ r.kanji.Sublist (asyncFilteredSorted db o) :=
  ⟨_, rfl, rfl, rfl, jsSlice_sublist _ _ _⟩

/-- 日 in the AsyncStorage catalog, frequency 1. -/
def entrySun : AsyncEntry :=
  { character := [0x65E5], meanings := [[0x64, 0x61, 0x79]], onReadings := [],
    kunReadings := [], strokeCount := 4, frequency := some 1 }

/-- 本 in the AsyncStorage catalog, frequency 2. -/
def entryBook : AsyncEntry :=
  { character := [0x672C], meanings := [[0x62, 0x6F, 0x6F, 0x6B]], onReadings := [],
    kunReadings := [], strokeCount := 5, frequency := some 2 }

def asyncDbSmall : List AsyncEntry := [entrySun, entryBook]

def badOffsetOpts : SearchOptions := { offset := some (-1) }

def zeroLimitOpts : SearchOptions := { limit := some 0 }

theorem searchKanji_no_validation_witness :
    ∃ r, asyncSearchKanji (some asyncDbSmall) badOffsetOpts = .ok r
      ∧ r.totalCount = (asyncFilteredSorted asyncDbSmall badOffsetOpts).length
      ∧ r.kanji = jsSlice (asyncFilteredSorted asyncDbSmall badOffsetOpts)
          (badOffsetOpts.offset.getD 0)
          (badOffsetOpts.offset.getD 0 + badOffsetOpts.limit.getD 50)
      ∧ r.kanji.Sublist (asyncFilteredSorted asyncDbSmall badOffsetOpts) :=
  searchKanji_no_validation asyncDbSmall badOffsetOpts (Or.inr (by decide))

/-- C7 counterexample: with offset -1 the call succeeds and returns the last
entry of the sorted matches (JS `slice(-1, 49)`); with limit 0 it succeeds
and returns an empty page; neither invalid value produces an error. -/
theorem searchKanji_invalid_args_return_page_cex :
    asyncSearchKanji (some asyncDbSmall) badOffsetOpts
      = .ok { kanji := [entryBook], totalCount := 2 }
    ∧ asyncSearchKanji (some asyncDbSmall) zeroLimitOpts
      = .ok { kanji := [], totalCount := 2 } := by
  constructor <;> rfl

/-! ## C9 — cleanText never drops a kanji/kana character -/

theorem count_dropWhile (p : Nat → Bool) (c : Nat) (hc : p c = false) :
    ∀ l : List Nat, (l.dropWhile p).count c = l.count c := by
  intro l
  induction l with
  | nil => rfl
  | cons x xs ih =>
    by_cases hx : p x
    · have hxc : x ≠ c := fun h => by rw [h, hc] at hx; exact Bool.noConfusion hx
      simp [List.dropWhile, hx, ih, List.count_cons, hxc]
    · simp [List.dropWhile, hx]

theorem count_collapseWsAux (c : Nat) (hc : isJsWs c = false) :
    ∀ (l : List Nat) (b : Bool), (collapseWsAux b l).count c = l.count c := by
  have hc20 : c ≠ 0x20 := fun h => by rw [h] at hc; exact Bool.noConfusion hc
  intro l
  induction l with
  | nil => intro b; rfl
  | cons x rest ih =>
    intro b
    by_cases hx : isJsWs x
    · have hxc : x ≠ c := fun h => by rw [h, hc] at hx; exact Bool.noConfusion hx
      cases b <;> simp [collapseWsAux, hx, ih, List.count_cons, hxc, hc20]
    · simp [collapseWsAux, hx, ih, List.count_cons]

theorem count_replaceCRLF (c : Nat) (h13 : c ≠ 0x0D) (h10 : c ≠ 0x0A) :
    ∀ l : List Nat, (replaceCRLF l).count c = l.count c := by
  intro l
  induction l using replaceCRLF.induct with
  | case1 => rfl
  | case2 a => rfl
  | case3 a b rest hab ih =>
    rcases (by simpa using hab : a = 0x0D ∧ b = 0x0A) with ⟨ha, hb⟩
    subst ha; subst hb
    simp [replaceCRLF, List.count_cons, h13, h10, ih]
  | case4 a b rest hab ih =>
    simp only [replaceCRLF, if_neg hab]
    simp [List.count_cons, ih]

theorem count_replaceCR (c : Nat) (h13 : c ≠ 0x0D) (h10 : c ≠ 0x0A) :
    ∀ l : List Nat, (replaceCR l).count c = l.count c := by
  intro l
  induction l with
  | nil => rfl
  | cons x rest ih =>
    by_cases hx : x = 0x0D
    · subst hx
      simp [replaceCR, List.count_cons, h13, h10] at *
      simpa using ih
    · simp [replaceCR, hx, List.count_cons] at *
      simpa using ih

theorem count_trimJs (c : Nat) (hc : isJsWs c = false) (l : List Nat) :
    (trimJs l).count c = l.count c := by
  unfold trimJs
  rw [List.count_reverse, count_dropWhile isJsWs c hc, List.count_reverse,
    count_dropWhile isJsWs c hc]

/-- C9: every character the analyzer classifies as kanji, hiragana or
katakana survives `cleanText` with its occurrence count intact — each of the
five clean-up stages only touches whitespace, stripped-class characters, or
CR/LF, none of which such a character can be. -/
theorem cleanText_preserves_japanese (text : List Nat) (c : Nat)
    (h : (isKanjiCU c || isHiraganaCU c || isKatakanaCU c) = true) :
    (cleanText text).count c = text.count c := by
  have hr : ((0x4E00 ≤ c ∧ c ≤ 0x9FAF) ∨ (0x3040 ≤ c ∧ c ≤ 0x309F))
      ∨ (0x30A0 ≤ c ∧ c ≤ 0x30FF) := by
    simpa [isKanjiCU, isHiraganaCU, isKatakanaCU, Bool.or_eq_true,
      Bool.and_eq_true, decide_eq_true_eq] using h
  have hws : isJsWs c = false := by
    rw [Bool.eq_false_iff]
    intro hT
    simp only [isJsWs, Bool.or_eq_true, Bool.and_eq_true, beq_iff_eq,
      decide_eq_true_eq] at hT
    omega
  have hkeep : keepCU c = true := by
    simp only [keepCU, isHiraganaCU, isKatakanaCU, isKanjiCU, isFullwidthCU,
      Bool.or_eq_true, Bool.and_eq_true, beq_iff_eq, decide_eq_true_eq]
    omega
  have h13 : c ≠ 0x0D := by omega
  have h10 : c ≠ 0x0A := by omega
  unfold cleanText
  rw [count_trimJs c hws, count_replaceCR c h13 h10, count_replaceCRLF c h13 h10,
    List.count_filter hkeep]
  exact count_collapseWsAux c hws text false

/-- The text "␣␣日A" — whitespace run, a kanji, an ASCII letter. -/
def sampleDirty : List Nat := [0x20, 0x20, 0x65E5, 0x41]

theorem cleanText_preserves_japanese_witness :
    (cleanText sampleDirty).count 0x65E5 = sampleDirty.count 0x65E5 :=
  cleanText_preserves_japanese sampleDirty 0x65E5 (by decide)

/-! ## C10 — totalCharacters counts UTF-16 code units -/

theorem utf16_length_sum (us : List Nat) :
    (utf16Encode us).length = (us.map (fun u => if u < 0x10000 then 1 else 2)).sum := by
  induction us with
  | nil => rfl
  | cons u rest ih =>
    by_cases hu : u < 0x10000 <;>
      simp [utf16Encode, encodeUtf16Char, hu, List.sum_cons] at * <;>
      omega

theorem length_le_utf16_length (us : List Nat) :
    us.length ≤ (utf16Encode us).length := by
  rw [utf16_length_sum]
  induction us with
  | nil => simp
  | cons u rest ih =>
    by_cases hu : u < 0x10000 <;> simp [hu, List.sum_cons] <;> omega

/-- C10: `stats.totalCharacters` is `text.length`, the UTF-16 code-unit
count of the JS string — a scalar value outside the BMP encodes as a
surrogate pair and contributes 2, so a text containing one has
`totalCharacters` strictly greater than its scalar-value count (this same
`totalCharacters` is the denominator of the difficulty score's kanji
proportion in `rawDifficulty`). -/
theorem totalCharacters_counts_code_units (s : KanjiStore) (us : List Nat) :
    (analyzeText s (utf16Encode us)).1.stats.totalCharacters = (utf16Encode us).length
    ∧ (utf16Encode us).length = (us.map (fun u => if u < 0x10000 then 1 else 2)).sum
    ∧ (∀ u, 0x10000 ≤ u → (encodeUtf16Char u).length = 2)
    ∧ ((∃ u ∈ us, 0x10000 ≤ u) → us.length < (utf16Encode us).length) := by
  refine ⟨rfl, utf16_length_sum us, ?_, ?_⟩
  · intro u hu
    have : ¬ u < 0x10000 := by omega
    simp [encodeUtf16Char, this]
  · rintro ⟨u, hu, hbig⟩
    rw [utf16_length_sum]
    induction us with
    | nil => cases hu
    | cons v rest ih =>
      rcases List.mem_cons.mp hu with rfl | hmem
      · have hv : ¬ u < 0x10000 := by omega
        have := (length_le_utf16_length rest).trans_eq (utf16_length_sum rest)
        simp only [List.map_cons, List.sum_cons, List.length_cons, if_neg hv]
        omega
      · have := ih hmem
        have hv1 : (1 : Nat) ≤ if v < 0x10000 then 1 else 2 := by split <;> omega
        simp only [List.map_cons, List.sum_cons, List.length_cons]
        omega

end KanjiReader
